import Mathlib

/-!
Verification development for the asynchronous CSV batch-import pipeline of the
storage service.  The definitions below are shallow embeddings of the
TypeScript sources:

* `parseCSVLine`, `validateCsvFile` — `lib/csv-validator` (quote-aware field
  splitter and structural CSV validation with header-schema variants);
* `startRowOf`, `endRowOf`, `keepRow`, `batchRows` — the row-range selection
  of `CsvProcessor.downloadAndParseCsv` (`lib/csv-processor`);
* `totalBatches`, `schedulerBatchNumbers` — the batch-count computation and
  the batch-submission loop of `processQueuedJobs`
  (`app/csv-jobs-scheduler/route.ts`);
* `JobStep` / `JobStepClean` — the job life-cycle step relation induced by the
  scheduler loop together with `CsvProcessor.processBatch` and
  `CsvProcessor.updateJobProgress`;
* `PoolStep` — the bounded task executor of `lib/worker-pool.ts`
  (`WorkerPool.execute` / `WorkerPool.processQueue`);
* `processBatch` — the result shape and database effect of
  `CsvProcessor.processBatch`, with its asynchronous collaborators
  (object-storage download, per-record HTTP calls, progress persistence)
  passed in as explicit oracles;
* `progressPercentage` — the progress computation of the job-status endpoint.

Strings are modelled over their character lists; all buffers of interest are
ASCII, where JavaScript byte lengths and character counts coincide.
-/

/-- Model of JavaScript `String.prototype.trim` on a character list:
whitespace is stripped from both ends. -/
def jsTrimList (cs : List Char) : List Char :=
  ((cs.dropWhile Char.isWhitespace).reverse.dropWhile Char.isWhitespace).reverse

/-- Model of JavaScript `.trim()`. -/
def jsTrim (s : String) : String := String.mk (jsTrimList s.toList)

/-- Model of JavaScript `.toLowerCase()` (ASCII letters). -/
def jsToLower (s : String) : String := String.mk (s.toList.map Char.toLower)

/-- Character loop of `parseCSVLine` (lib/csv-validator): `current` is the
field being accumulated, the `Bool` is the `insideQuotes` flag, `acc` the
fields pushed so far.  A quote inside quotes followed by another quote is an
escaped literal quote (the source's `i++` lookahead); a comma outside quotes
terminates the current field with `current.trim()`. -/
def parseCSVLineAux : List Char → Bool → List Char → List String → List String
  | [], _, current, acc => acc ++ [jsTrim (String.mk current)]
  | '"' :: '"' :: rest, true, current, acc => parseCSVLineAux rest true (current ++ ['"']) acc
  | '"' :: [], true, current, acc => parseCSVLineAux [] false current acc
  | '"' :: c2 :: rest, true, current, acc => parseCSVLineAux (c2 :: rest) false current acc
  | '"' :: rest, false, current, acc => parseCSVLineAux rest true current acc
  | ',' :: rest, false, current, acc => parseCSVLineAux rest false [] (acc ++ [jsTrim (String.mk current)])
  | c :: rest, inQ, current, acc => parseCSVLineAux rest inQ (current ++ [c]) acc

/-- Quote-aware CSV field splitter of lib/csv-validator: splits on unquoted
commas, resolves doubled quotes, trims every field and finally drops fields
that are empty (`result.filter((field) => field.length > 0)`). -/
def parseCSVLine (line : String) : List String :=
  (parseCSVLineAux line.toList false [] []).filter (fun field => decide (0 < field.length))

/-- Splitting a character list at a separator, as JavaScript `split`. -/
def splitOnCharAux (sep : Char) : List Char → List Char → List (List Char)
  | [], cur => [cur.reverse]
  | c :: rest, cur =>
    if c = sep then cur.reverse :: splitOnCharAux sep rest []
    else splitOnCharAux sep rest (c :: cur)

/-- Line extraction of `validateCsvFile`:
`textContent.split('\n').filter((line) => line.trim())`. -/
def csvLines (content : String) : List String :=
  ((splitOnCharAux '\n' content.toList []).map String.mk).filter
    (fun line => decide (0 < (jsTrim line).length))

/-- Punctuation characters of the binary-content allow-list regex
`[\p{L}\p{N}\s,"'.;\-_@#$%&()[\]{}+=:/?!~`^|\\]` of `validateCsvFile`
(the bracket, brace, apostrophe, backtick and backslash members are written
via their code points). -/
def allowedPunctChars : List Char :=
  [',', '"', Char.ofNat 39, '.', ';', '-', '_', '@', '#', '$', '%', '&', '(', ')',
   '[', ']', Char.ofNat 123, Char.ofNat 125, '+', '=', ':', '/', '?', '!', '~',
   Char.ofNat 96, '^', '|', Char.ofNat 92]

/-- One character of the allow-list: a letter, a digit, whitespace or one of
the listed punctuation characters (the `\p{L}`/`\p{N}` classes restricted to
the ASCII range in which all inputs of interest live). -/
def allowedCsvChar (c : Char) : Bool :=
  c.isAlpha || c.isDigit || c.isWhitespace || allowedPunctChars.contains c

/-- Binary-content heuristic of `validateCsvFile`: the first 512 bytes must
all be allow-listed. -/
def contentSampleOk (fileBuffer : String) : Bool :=
  (fileBuffer.toList.take 512).all allowedCsvChar

/-- Delimiter check of `validateCsvFile`: the 512-byte sample must contain a
comma. -/
def sampleHasComma (fileBuffer : String) : Bool :=
  (fileBuffer.toList.take 512).contains ','

/-- Extension check of `validateCsvFile`:
`fileName.toLowerCase().endsWith('.csv')`. -/
def hasCsvExtension (fileName : String) : Bool :=
  List.isSuffixOf ".csv".toList (jsToLower fileName).toList

/-- Option set 1 of lib/csv-validator: student master import. -/
def REQUIRED_CSV_HEADERS_VARIANT_1 : List String := ["email", "firstname", "lastname", "phoneno"]

/-- Option set 2 of lib/csv-validator: course assignment import. -/
def REQUIRED_CSV_HEADERS_VARIANT_2 : List String := ["coursename", "studentname"]

/-- Option set 3 of lib/csv-validator: assessment assignment import. -/
def REQUIRED_CSV_HEADERS_VARIANT_3 : List String := ["assessmentname", "studentname"]

/-- Header normalization of `validateCsvFile`: `h.toLowerCase().trim()`. -/
def normalizeHeader (h : String) : String := jsTrim (jsToLower h)

/-- Variant check of `validateCsvFile`:
`required.every((h) => normalizedHeaders.includes(h))`. -/
def hasVariant (required normalizedHeaders : List String) : Bool :=
  required.all (fun h => normalizedHeaders.contains h)

/-- Missing headers of one variant:
`required.filter((h) => !normalizedHeaders.includes(h))`. -/
def missingHeaders (required normalizedHeaders : List String) : List String :=
  required.filter (fun h => !(normalizedHeaders.contains h))

/-- JavaScript `xs.join(', ')`. -/
def joinComma (xs : List String) : String := String.intercalate ", " xs

/-- JavaScript `s || 'none'` on a string. -/
def orNone (s : String) : String := if s = "" then "none" else s

/-- Error message assembled by `validateCsvFile` when no header variant is
fully satisfied, naming the missing headers per variant. -/
def missingHeadersError (m1 m2 m3 : List String) : String :=
  "Missing required CSV headers. Either provide: [" ++ joinComma REQUIRED_CSV_HEADERS_VARIANT_1 ++
  "] (student details) or: [" ++ joinComma REQUIRED_CSV_HEADERS_VARIANT_2 ++
  "] (course & student name) or: [" ++ joinComma REQUIRED_CSV_HEADERS_VARIANT_3 ++
  "] (assessment & student name). Missing for variant 1: " ++ orNone (joinComma m1) ++
  "; missing for variant 2: " ++ orNone (joinComma m2) ++
  "; missing for variant 3: " ++ orNone (joinComma m3)

/-- Result record of `validateCsvFile` (interface `CsvValidationResult`). -/
structure CsvValidationResult where
  isValid : Bool
  error : Option String := none
  headers : Option (List String) := none
  recordCount : Option Nat := none
deriving DecidableEq

/-- Parsed header fields of the first non-blank line
(`parseCSVLine(lines[0])`). -/
def csvHeaderFields (fileBuffer : String) : List String :=
  parseCSVLine ((csvLines fileBuffer).headI)

/-- Normalized headers (`headers.map((h) => h.toLowerCase().trim())`). -/
def normalizedCsvHeaders (fileBuffer : String) : List String :=
  (csvHeaderFields fileBuffer).map normalizeHeader

/-- Active variant selection of `validateCsvFile`: the first fully-satisfied
variant in the fixed precedence order 1, 2, 3 becomes the active required set
(used for the unknown-header warning). -/
def activeRequiredHeaders (normalizedHeaders : List String) : List String :=
  if hasVariant REQUIRED_CSV_HEADERS_VARIANT_1 normalizedHeaders then REQUIRED_CSV_HEADERS_VARIANT_1
  else if hasVariant REQUIRED_CSV_HEADERS_VARIANT_2 normalizedHeaders then REQUIRED_CSV_HEADERS_VARIANT_2
  else REQUIRED_CSV_HEADERS_VARIANT_3

/-- Structural CSV validation of lib/csv-validator (`validateCsvFile`):
size bounds, extension, binary-content heuristic, delimiter presence,
header + data-row presence, header extraction and header-variant matching.
The buffer is its ASCII text (byte length = character count). -/
def validateCsvFile (fileBuffer : String) (fileName : String) : CsvValidationResult :=
  if fileBuffer.length < 10 then
    ⟨false, some "File size too small (minimum 10 bytes)", none, none⟩
  else if fileBuffer.length > 52428800 then
    ⟨false, some "File size exceeds maximum limit (50 MB)", none, none⟩
  else if !hasCsvExtension fileName then
    ⟨false, some "File must have .csv extension", none, none⟩
  else if !contentSampleOk fileBuffer then
    ⟨false, some "File content appears to be binary, not plain text CSV", none, none⟩
  else if !sampleHasComma fileBuffer then
    ⟨false, some "File does not appear to be CSV format (no commas detected)", none, none⟩
  else if (csvLines fileBuffer).length < 2 then
    ⟨false, some "CSV file must contain at least a header and one data row", none, none⟩
  else if (csvHeaderFields fileBuffer).length = 0 then
    ⟨false, some "CSV file has no headers", none, none⟩
  else
    let normalizedHeaders := normalizedCsvHeaders fileBuffer
    if !hasVariant REQUIRED_CSV_HEADERS_VARIANT_1 normalizedHeaders &&
       !hasVariant REQUIRED_CSV_HEADERS_VARIANT_2 normalizedHeaders &&
       !hasVariant REQUIRED_CSV_HEADERS_VARIANT_3 normalizedHeaders then
      ⟨false, some (missingHeadersError
        (missingHeaders REQUIRED_CSV_HEADERS_VARIANT_1 normalizedHeaders)
        (missingHeaders REQUIRED_CSV_HEADERS_VARIANT_2 normalizedHeaders)
        (missingHeaders REQUIRED_CSV_HEADERS_VARIANT_3 normalizedHeaders)), none, none⟩
    else
      ⟨true, none, some normalizedHeaders, some ((csvLines fileBuffer).length - 1)⟩

/-- First data row of a batch in `CsvProcessor.downloadAndParseCsv`:
`startRow = (batchNumber - 1) * batchSize + 1` (data rows are 1-indexed, the
header excluded). -/
def startRowOf (batchNumber batchSize : Nat) : Nat := (batchNumber - 1) * batchSize + 1

/-- Last data row of a batch: `endRow = startRow + batchSize - 1`. -/
def endRowOf (batchNumber batchSize : Nat) : Nat :=
  startRowOf batchNumber batchSize + batchSize - 1

/-- Row retention test of the stream callback:
`rowNumber >= startRow && rowNumber <= endRow`. -/
def keepRow (batchNumber batchSize row : Nat) : Bool :=
  decide (startRowOf batchNumber batchSize ≤ row) &&
  decide (row ≤ endRowOf batchNumber batchSize)

/-- Data rows retained for a batch out of a stream of `totalRows` data rows
(numbered 1 to `totalRows`; the parser skips the header). -/
def batchRows (batchNumber batchSize totalRows : Nat) : List Nat :=
  (List.range' 1 totalRows).filter (fun r => keepRow batchNumber batchSize r)

/-- Number of rows retained for a batch. -/
def batchCount (batchNumber batchSize totalRows : Nat) : Nat :=
  (batchRows batchNumber batchSize totalRows).length

/-- Batch count of `processQueuedJobs`:
`Math.ceil(job.total_records / batchSize)`, rendered as ceiling division on
naturals (exact for positive `batchSize`). -/
def totalBatches (totalRecords batchSize : Nat) : Nat :=
  (totalRecords + batchSize - 1) / batchSize

/-- Spec-side formulation `ceil(totalRecords / batchSize)` over the rationals,
for comparison with the scheduler's computation. -/
def specCeilBatches (totalRecords batchSize : Nat) : Nat :=
  ⌈(totalRecords : ℚ) / (batchSize : ℚ)⌉₊

/-- Batch numbers submitted by the scheduler loop
(`for (let batchNumber = 1; batchNumber <= totalBatches; batchNumber++)`). -/
def schedulerBatchNumbers (totalRecords batchSize : Nat) : List Nat :=
  List.range' 1 (totalBatches totalRecords batchSize)

/-- Status column of a job: `queued`, `processing` (annotated with the next
batch number the scheduler loop will submit) or `completed`. -/
inductive JobStatus where
  | queued
  | processing (nextBatch : Nat)
  | completed
deriving DecidableEq

/-- Observable job state: the fixed `total_records` column, the accumulating
`success_count` and `failure_count` columns, and the status. -/
structure JobState where
  totalRecords : Nat
  successCount : Nat
  failureCount : Nat
  status : JobStatus
deriving DecidableEq

/-- Job row at creation: zero counters, status `queued`. -/
def jobInit (totalRecords : Nat) : JobState := ⟨totalRecords, 0, 0, .queued⟩

/-- Step relation of the scheduler loop and batch processor acting on one job
whose CSV stream yields exactly `totalRecords` data rows (the record count
established by the validator at creation):

* `pickJob` — `processQueuedJobs` finds the queued job and sets its status to
  `processing`;
* `batchOk` — batch `b` downloads its row range and every retained row is
  sent downstream, `p` rows succeeding and `f` failing;
  `updateJobProgress` adds `p` and `f` to the persisted counters;
* `batchOkLost` — same, but the progress `UPDATE` fails and is swallowed by
  `updateJobProgress`'s catch block: counters unchanged;
* `batchFail` — `processBatch` hits an unrecoverable exception (storage fetch
  or stream fault), returns `success: false` with zero counts, and the loop
  moves on without writing;
* `completeJob` — after the last batch the loop marks the job `completed`. -/
inductive JobStep (bs : Nat) : JobState → JobState → Prop
  | pickJob (s : JobState) : s.status = .queued →
      JobStep bs s ⟨s.totalRecords, s.successCount, s.failureCount, .processing 1⟩
  | batchOk (s : JobState) (b p f : Nat) : s.status = .processing b →
      b ≤ totalBatches s.totalRecords bs →
      p + f = batchCount b bs s.totalRecords →
      JobStep bs s ⟨s.totalRecords, s.successCount + p, s.failureCount + f, .processing (b + 1)⟩
  | batchOkLost (s : JobState) (b p f : Nat) : s.status = .processing b →
      b ≤ totalBatches s.totalRecords bs →
      p + f = batchCount b bs s.totalRecords →
      JobStep bs s ⟨s.totalRecords, s.successCount, s.failureCount, .processing (b + 1)⟩
  | batchFail (s : JobState) (b : Nat) : s.status = .processing b →
      b ≤ totalBatches s.totalRecords bs →
      JobStep bs s ⟨s.totalRecords, s.successCount, s.failureCount, .processing (b + 1)⟩
  | completeJob (s : JobState) (b : Nat) : s.status = .processing b →
      totalBatches s.totalRecords bs < b →
      JobStep bs s ⟨s.totalRecords, s.successCount, s.failureCount, .completed⟩

/-- Restriction of `JobStep` to runs in which every batch succeeds and every
progress write persists (no storage faults, no swallowed `UPDATE` errors). -/
inductive JobStepClean (bs : Nat) : JobState → JobState → Prop
  | pickJob (s : JobState) : s.status = .queued →
      JobStepClean bs s ⟨s.totalRecords, s.successCount, s.failureCount, .processing 1⟩
  | batchOk (s : JobState) (b p f : Nat) : s.status = .processing b →
      b ≤ totalBatches s.totalRecords bs →
      p + f = batchCount b bs s.totalRecords →
      JobStepClean bs s ⟨s.totalRecords, s.successCount + p, s.failureCount + f, .processing (b + 1)⟩
  | completeJob (s : JobState) (b : Nat) : s.status = .processing b →
      totalBatches s.totalRecords bs < b →
      JobStepClean bs s ⟨s.totalRecords, s.successCount, s.failureCount, .completed⟩

/-- Inductive invariant for `JobStep`: the persisted counters never exceed
the rows already covered by finished batches. -/
def JobInv (bs : Nat) (s : JobState) : Prop :=
  match s.status with
  | .queued => s.successCount = 0 ∧ s.failureCount = 0
  | .processing b => 1 ≤ b ∧
      s.successCount + s.failureCount ≤ min ((b - 1) * bs) s.totalRecords
  | .completed => s.successCount + s.failureCount ≤ s.totalRecords

/-- Inductive invariant for `JobStepClean`: the counters equal exactly the
rows covered by finished batches, so completion accounts for every row. -/
def JobInvClean (bs : Nat) (s : JobState) : Prop :=
  match s.status with
  | .queued => s.successCount = 0 ∧ s.failureCount = 0
  | .processing b => 1 ≤ b ∧ b ≤ totalBatches s.totalRecords bs + 1 ∧
      s.successCount + s.failureCount = min ((b - 1) * bs) s.totalRecords
  | .completed => s.successCount + s.failureCount = s.totalRecords

/-- One task of the bounded executor, carrying the outcome its handler will
produce (`ok = true`: the handler's promise fulfils; `ok = false`: the handler
throws/rejects and the task's future is rejected with that error). -/
structure WorkerTask where
  id : Nat
  ok : Bool
deriving DecidableEq

/-- Observable executor state of `WorkerPool`: the FIFO `queue`, the
in-flight tasks (`running`), the `activeWorkers` counter, the settled futures
(`done`, each task settling with its own outcome), and the ghost list of all
submissions. -/
structure PoolState where
  queue : List WorkerTask
  running : List WorkerTask
  activeWorkers : Int
  done : List WorkerTask
  submitted : List WorkerTask
deriving DecidableEq

/-- Concurrency-cap clamping of the `WorkerPool` constructor:
`Math.max(1, Math.min(maxWorkers, 10))`. -/
def clampMaxWorkers (requested : Int) : Int := max 1 (min requested 10)

/-- Executor state after a burst of submissions, before any dispatch. -/
def poolStart (tasks : List WorkerTask) : PoolState := ⟨tasks, [], 0, [], tasks⟩

/-- Step relation of `WorkerPool`:

* `submit` — `execute` pushes a task at the back of the FIFO queue;
* `dispatch` — a `processQueue` invocation finds `activeWorkers` below the
  cap and a non-empty queue, increments `activeWorkers` and shifts the oldest
  task into execution;
* `finish` — an in-flight task settles (fulfils or rejects); the `finally`
  handler decrements `activeWorkers` and re-invokes `processQueue`, whose
  subsequent dispatches are further `dispatch` steps.  Success and failure
  share this one rule: a throwing handler rejects only its own future and
  releases its slot exactly like a succeeding one. -/
inductive PoolStep (cap : Int) : PoolState → PoolState → Prop
  | submit (s : PoolState) (t : WorkerTask) :
      PoolStep cap s ⟨s.queue ++ [t], s.running, s.activeWorkers, s.done, s.submitted ++ [t]⟩
  | dispatch (s : PoolState) (t : WorkerTask) (rest : List WorkerTask) :
      s.activeWorkers < cap → s.queue = t :: rest →
      PoolStep cap s ⟨rest, s.running ++ [t], s.activeWorkers + 1, s.done, s.submitted⟩
  | finish (s : PoolState) (t : WorkerTask) (pre post : List WorkerTask) :
      s.running = pre ++ t :: post →
      PoolStep cap s ⟨s.queue, pre ++ post, s.activeWorkers - 1, s.done ++ [t], s.submitted⟩

/-- Inductive invariant of the executor: `activeWorkers` counts exactly the
in-flight tasks, stays within the cap, and every submission is in exactly one
of queue / running / done. -/
def PoolInv (cap : Int) (s : PoolState) : Prop :=
  s.activeWorkers = s.running.length ∧ (s.running.length : Int) ≤ cap ∧
    (s.queue ++ s.running ++ s.done).Perm s.submitted

/-- Internal work remains: a dispatch is possible or a task is in flight
(`submit` steps are external stimuli and not counted). -/
def poolCanStep (cap : Int) (s : PoolState) : Prop :=
  (s.activeWorkers < cap ∧ s.queue ≠ []) ∨ s.running ≠ []

instance (cap : Int) (s : PoolState) : Decidable (poolCanStep cap s) := by
  unfold poolCanStep; infer_instance

/-- Normalized student row of `CsvProcessor.normalizeRecord`. -/
structure StudentRecord where
  email : String
  firstname : String
  lastname : String
  phoneno : String
deriving DecidableEq

/-- Outcome of one downstream `fetch` in `CsvProcessor.sendToUserService`:
2xx response, non-2xx response with status and body text, or a thrown network
error. -/
inductive SendOutcome where
  | ok
  | httpErr (status : Nat) (body : String)
  | netErr (msg : String)
deriving DecidableEq

/-- One entry of the job's error collection (`{email, error}`). -/
structure ErrorRecord where
  email : String
  error : String
deriving DecidableEq

/-- Mutable columns of the `csv_processing_jobs` row touched by
`updateJobProgress` (timestamps abstracted to a counter). -/
structure JobRow where
  success_count : Nat
  failure_count : Nat
  errors : List ErrorRecord
  updated_at : Nat
deriving DecidableEq

/-- Sequential per-record loop of `CsvProcessor.sendToUserService`: each
record makes one HTTP call; a 2xx increments `processed`, otherwise `failed`
is incremented and an error entry is appended; no row failure aborts the
batch.  Returns `(processed, failed, errorRecords)`. -/
def sendToUserService (records : List StudentRecord) (send : StudentRecord → SendOutcome) :
    Nat × Nat × List ErrorRecord :=
  records.foldl (fun acc record =>
    match send record with
    | .ok => (acc.1 + 1, acc.2.1, acc.2.2)
    | .httpErr status body =>
        (acc.1, acc.2.1 + 1, acc.2.2 ++ [⟨record.email, toString status ++ " - " ++ body⟩])
    | .netErr msg => (acc.1, acc.2.1 + 1, acc.2.2 ++ [⟨record.email, msg⟩])) (0, 0, [])

/-- Progress persistence of `CsvProcessor.updateJobProgress`: the SQL adds the
deltas to the counters, merges the batch's error entries (replacing an empty
collection, appending otherwise) and stamps `updated_at`; a write failure is
caught and swallowed, leaving the row untouched (`persistFails = true`). -/
def updateJobProgress (db : JobRow) (processedCount failedCount : Nat)
    (errorRecords : List ErrorRecord) (persistFails : Bool) (now : Nat) : JobRow :=
  if persistFails then db
  else ⟨db.success_count + processedCount, db.failure_count + failedCount,
        (if db.errors = [] then errorRecords else db.errors ++ errorRecords), now⟩

/-- Result record of `CsvProcessor.processBatch`. -/
structure BatchResult where
  success : Bool
  processedCount : Nat
  failedCount : Nat
  errorMessage : Option String := none
  errorRecords : Option (List ErrorRecord) := none
deriving DecidableEq

/-- Control flow of `CsvProcessor.processBatch`.  `download` is the outcome
of `downloadAndParseCsv` (the retained, normalized rows of the batch, or the
message of a thrown storage/stream error), `send` resolves each downstream
call, `persistFails` tells whether the progress `UPDATE` fails, `db` is the
job row.  A thrown download error is caught and produces
`{success: false, processedCount: 0, failedCount: 0, errorMessage}`; an empty
batch returns success with zero counts; otherwise the rows are sent and the
job row updated. -/
def processBatch (download : Except String (List StudentRecord))
    (send : StudentRecord → SendOutcome) (persistFails : Bool) (now : Nat) (db : JobRow) :
    BatchResult × JobRow :=
  match download with
  | .error msg => (⟨false, 0, 0, some msg, none⟩, db)
  | .ok records =>
    if records.length = 0 then (⟨true, 0, 0, none, none⟩, db)
    else
      let r := sendToUserService records send
      let db2 := updateJobProgress db r.1 r.2.1 r.2.2 persistFails now
      (⟨true, r.1, r.2.1, none, some r.2.2⟩, db2)

/-- Progress computation of the job-status endpoint:
`total_records > 0 ? Math.round((success + failure) / total * 100) : 0`. -/
def progressPercentage (success_count failure_count total_records : Nat) : Int :=
  if 0 < total_records then
    round ((((success_count : ℚ) + (failure_count : ℚ)) / (total_records : ℚ)) * 100)
  else 0

theorem length_batchRows (bn bs : Nat) (hbn : 1 ≤ bn) (total : Nat) :
    (batchRows bn bs total).length = min (bn * bs) total - min ((bn - 1) * bs) total := by
  obtain ⟨b, rfl⟩ : ∃ b, bn = b + 1 := ⟨bn - 1, by omega⟩
  have hs : startRowOf (b + 1) bs = b * bs + 1 := by simp [startRowOf]
  have he : endRowOf (b + 1) bs = b * bs + bs := by
    simp only [endRowOf, hs]; omega
  have hmul : (b + 1) * bs = b * bs + bs := by ring
  have hsub : (b + 1) - 1 = b := rfl
  induction total with
  | zero => simp [batchRows]
  | succ n ih =>
    have hr : List.range' 1 (n + 1) = List.range' 1 n ++ [1 + n] := by
      simpa using @List.range'_concat 1 1 n
    have hkiff : keepRow (b + 1) bs (1 + n) = true ↔
        (b * bs + 1 ≤ 1 + n ∧ 1 + n ≤ b * bs + bs) := by
      simp [keepRow, hs, he]
    rw [batchRows, hr, List.filter_append, List.length_append, ← batchRows, ih]
    by_cases hk : b * bs + 1 ≤ 1 + n ∧ 1 + n ≤ b * bs + bs
    · have hkb := hkiff.mpr hk
      rw [List.filter_cons, if_pos hkb]
      simp only [List.filter_nil, List.length_cons, List.length_nil, hmul, hsub]
      omega
    · have hkb : keepRow (b + 1) bs (1 + n) = false := by
        cases hkc : keepRow (b + 1) bs (1 + n)
        · rfl
        · exact absurd (hkiff.mp hkc) hk
      rw [List.filter_cons, if_neg (by simp [hkb])]
      simp only [List.filter_nil, List.length_nil, hmul, hsub]
      omega

theorem mem_batchRows (bn bs row total : Nat) :
    row ∈ batchRows bn bs total ↔
      startRowOf bn bs ≤ row ∧ row ≤ endRowOf bn bs ∧ 1 ≤ row ∧ row ≤ total := by
  simp only [batchRows, List.mem_filter, List.mem_range'_1, keepRow,
    Bool.and_eq_true, decide_eq_true_eq]
  omega

theorem total_le_totalBatches_mul (t bs : Nat) (hbs : 1 ≤ bs) :
    t ≤ totalBatches t bs * bs := by
  have h1 := Nat.div_add_mod (t + bs - 1) bs
  have h2 : (t + bs - 1) % bs < bs := Nat.mod_lt _ (by omega)
  unfold totalBatches
  rw [Nat.mul_comm]
  omega

theorem totalBatches_eq_specCeil (t bs : Nat) (hbs : 1 ≤ bs) :
    totalBatches t bs = specCeilBatches t bs := by
  rw [specCeilBatches]
  rcases Nat.eq_zero_or_pos t with ht | ht
  · subst ht
    unfold totalBatches
    rw [Nat.div_eq_of_lt (by omega)]
    simp
  · have hq : (0 : ℚ) < (bs : ℚ) := by exact_mod_cast hbs
    have hTB1 : 1 ≤ totalBatches t bs := by
      unfold totalBatches
      rw [Nat.le_div_iff_mul_le (by omega)]
      omega
    symm
    rw [Nat.ceil_eq_iff (by omega)]
    constructor
    · rw [lt_div_iff₀ hq]
      have hub : totalBatches t bs * bs ≤ t + bs - 1 := by
        unfold totalBatches
        exact Nat.div_mul_le_self _ _
      have hx : (totalBatches t bs - 1) * bs = totalBatches t bs * bs - bs := by
        rw [Nat.sub_mul, Nat.one_mul]
      have hlt : (totalBatches t bs - 1) * bs < t := by omega
      exact_mod_cast hlt
    · rw [div_le_iff₀ hq]
      have hge := total_le_totalBatches_mul t bs hbs
      exact_mod_cast hge

theorem jobInv_step {bs : Nat} {s s2 : JobState} (h : JobStep bs s s2) (hinv : JobInv bs s) :
    JobInv bs s2 := by
  cases h with
  | pickJob hq =>
    rw [JobInv, hq] at hinv
    simp [JobInv, hinv]
  | batchOk b p f hp hb hpf =>
    rw [JobInv, hp] at hinv
    have hc : batchCount b bs s.totalRecords
        = min (b * bs) s.totalRecords - min ((b - 1) * bs) s.totalRecords := by
      rw [batchCount]; exact length_batchRows b bs hinv.1 _
    simp only [JobInv]
    constructor
    · omega
    · have h2 := hinv.2
      rw [hc] at hpf
      have hmono : min ((b - 1) * bs) s.totalRecords ≤ min (b * bs) s.totalRecords := by
        have : (b - 1) * bs ≤ b * bs := Nat.mul_le_mul_right _ (by omega)
        omega
      simp only [Nat.add_sub_cancel]
      omega
  | batchOkLost b p f hp hb hpf =>
    rw [JobInv, hp] at hinv
    simp only [JobInv]
    constructor
    · omega
    · have h2 := hinv.2
      have hmono : min ((b - 1) * bs) s.totalRecords ≤ min (b * bs) s.totalRecords := by
        have : (b - 1) * bs ≤ b * bs := Nat.mul_le_mul_right _ (by omega)
        omega
      simp only [Nat.add_sub_cancel]
      omega
  | batchFail b hp hb =>
    rw [JobInv, hp] at hinv
    simp only [JobInv]
    have hmono : (b - 1) * bs ≤ b * bs := Nat.mul_le_mul_right _ (by omega)
    constructor
    · omega
    · simp only [Nat.add_sub_cancel]; omega
  | completeJob b hp hb =>
    rw [JobInv, hp] at hinv
    simp only [JobInv]
    omega

theorem jobInv_reach {bs : Nat} {s s2 : JobState}
    (h : Relation.ReflTransGen (JobStep bs) s s2) (hinv : JobInv bs s) : JobInv bs s2 := by
  induction h with
  | refl => exact hinv
  | tail _ hstep ih => exact jobInv_step hstep ih

theorem jobInvClean_step {bs : Nat} (hbs : 1 ≤ bs) {s s2 : JobState}
    (h : JobStepClean bs s s2) (hinv : JobInvClean bs s) : JobInvClean bs s2 := by
  cases h with
  | pickJob hq =>
    rw [JobInvClean, hq] at hinv
    simp [JobInvClean, hinv]
  | batchOk b p f hp hb hpf =>
    rw [JobInvClean, hp] at hinv
    obtain ⟨hb1, hb2, heq⟩ := hinv
    have hc : batchCount b bs s.totalRecords
        = min (b * bs) s.totalRecords - min ((b - 1) * bs) s.totalRecords := by
      rw [batchCount]; exact length_batchRows b bs hb1 _
    rw [hc] at hpf
    have hmono : min ((b - 1) * bs) s.totalRecords ≤ min (b * bs) s.totalRecords := by
      have : (b - 1) * bs ≤ b * bs := Nat.mul_le_mul_right _ (by omega)
      omega
    simp only [JobInvClean]
    refine ⟨by omega, by omega, ?_⟩
    simp only [Nat.add_sub_cancel]
    omega
  | completeJob b hp hb =>
    rw [JobInvClean, hp] at hinv
    obtain ⟨hb1, hb2, heq⟩ := hinv
    have hbe : b = totalBatches s.totalRecords bs + 1 := by omega
    have hge := total_le_totalBatches_mul s.totalRecords bs hbs
    simp only [JobInvClean]
    rw [hbe] at heq
    simp only [Nat.add_sub_cancel] at heq
    omega

theorem jobInvClean_reach {bs : Nat} (hbs : 1 ≤ bs) {s s2 : JobState}
    (h : Relation.ReflTransGen (JobStepClean bs) s s2) (hinv : JobInvClean bs s) :
    JobInvClean bs s2 := by
  induction h with
  | refl => exact hinv
  | tail _ hstep ih => exact jobInvClean_step hbs hstep ih

theorem jobStep_totalRecords {bs : Nat} {s s2 : JobState}
    (h : Relation.ReflTransGen (JobStep bs) s s2) : s2.totalRecords = s.totalRecords := by
  induction h with
  | refl => rfl
  | tail _ hstep ih => cases hstep <;> simpa using ih

theorem poolInv_step {cap : Int} {s s2 : PoolState} (h : PoolStep cap s s2)
    (hinv : PoolInv cap s) : PoolInv cap s2 := by
  obtain ⟨h1, h2, h3⟩ := hinv
  cases h with
  | submit t =>
    refine ⟨h1, h2, ?_⟩
    have hp : (s.queue ++ [t] ++ s.running ++ s.done).Perm
        ((s.queue ++ s.running ++ s.done) ++ [t]) := by
      rw [List.perm_iff_count]
      intro a
      simp [List.count_append, List.count_cons]
      omega
    exact hp.trans (h3.append_right [t])
  | dispatch t rest hlt hq =>
    rw [hq] at h3
    rw [h1] at hlt
    refine ⟨by simp [h1], by simp; omega, ?_⟩
    · refine List.Perm.trans ?_ h3
      rw [List.perm_iff_count]
      intro a
      simp [List.count_append, List.count_cons]
      omega
  | finish t pre post hrun =>
    rw [hrun] at h1 h2 h3
    refine ⟨by simp [h1]; omega, by simp at h2 ⊢; omega, ?_⟩
    · refine List.Perm.trans ?_ h3
      rw [List.perm_iff_count]
      intro a
      simp [List.count_append, List.count_cons]
      omega

theorem poolInv_reach {cap : Int} {s s2 : PoolState}
    (h : Relation.ReflTransGen (PoolStep cap) s s2) (hinv : PoolInv cap s) : PoolInv cap s2 := by
  induction h with
  | refl => exact hinv
  | tail _ hstep ih => exact poolInv_step hstep ih

theorem clampMaxWorkers_bounds (n : Int) : 1 ≤ clampMaxWorkers n ∧ clampMaxWorkers n ≤ 10 := by
  unfold clampMaxWorkers; omega

theorem poolInv_start (cap : Int) (hcap : 0 ≤ cap) (ts : List WorkerTask) :
    PoolInv cap (poolStart ts) := by
  refine ⟨rfl, ?_, by simp [poolStart]⟩
  simp [poolStart]; omega

/-- C1: starting from creation (zero counters, status `queued`), every state
reachable under the scheduler-loop/batch-processor step relation satisfies
`successCount + failureCount ≤ totalRecords` (with `totalRecords` immutable);
and — as amended — in every `completed` state reached along a run in which
every batch succeeded and every progress write persisted (`JobStepClean`),
`successCount + failureCount = totalRecords`.  The unconditional equality of
the original claim fails: a batch-level error or a swallowed progress-write
failure still lets the loop mark the job `completed` with smaller counters
(see the counterexample). -/
theorem C1_job_progress_invariant (bs t : Nat) (s : JobState) :
    (Relation.ReflTransGen (JobStep bs) (jobInit t) s →
      s.successCount + s.failureCount ≤ s.totalRecords ∧ s.totalRecords = t) ∧
    (1 ≤ bs → Relation.ReflTransGen (JobStepClean bs) (jobInit t) s →
      s.status = .completed → s.successCount + s.failureCount = s.totalRecords) := by
  constructor
  · intro h
    refine ⟨?_, jobStep_totalRecords h⟩
    have hinv : JobInv bs s := jobInv_reach h (by simp [JobInv, jobInit])
    rcases hst : s.status with _ | b | _ <;> rw [JobInv, hst] at hinv
    · simp [hinv]
    · omega
    · exact hinv
  · intro hbs h hc
    have hinv : JobInvClean bs s := jobInvClean_reach hbs h (by simp [JobInvClean, jobInit])
    rw [JobInvClean, hc] at hinv
    exact hinv

/-- C1 counterexample: with batch size 50 and one job of a single record, the
run pick → batch 1 fails (storage fault, nothing written) → complete reaches
status `completed` with `successCount + failureCount = 0 ≠ 1 = totalRecords`,
refuting the claim's unconditional equality at completion. -/
theorem C1_counterexample :
    Relation.ReflTransGen (JobStep 50) (jobInit 1) ⟨1, 0, 0, .completed⟩ ∧ 0 + 0 ≠ 1 := by
  constructor
  · exact Relation.ReflTransGen.head (JobStep.pickJob _ rfl)
      (Relation.ReflTransGen.head (JobStep.batchFail _ 1 rfl (by decide))
        (Relation.ReflTransGen.head (JobStep.completeJob _ 2 rfl (by decide))
          Relation.ReflTransGen.refl))
  · decide

/-- C1 witness: the invariant instantiated at the initial state of a 2-record
job, and the clean-run equality at a concrete completed state of a 1-record
job (pick → batch 1 succeeds with 1 success → complete). -/
theorem C1_witness : 0 + 0 ≤ 2 ∧ 1 + 0 = 1 := by
  constructor
  · have h := (C1_job_progress_invariant 50 2 (jobInit 2)).1 Relation.ReflTransGen.refl
    simpa [jobInit] using h.1
  · have hchain : Relation.ReflTransGen (JobStepClean 50) (jobInit 1) ⟨1, 1, 0, .completed⟩ := by
      have s0 : JobStepClean 50 (jobInit 1) ⟨1, 0, 0, .processing 1⟩ :=
        JobStepClean.pickJob _ rfl
      have s1 : JobStepClean 50 (⟨1, 0, 0, .processing 1⟩ : JobState) ⟨1, 1, 0, .processing 2⟩ := by
        have hstep := @JobStepClean.batchOk 50 ⟨1, 0, 0, .processing 1⟩ 1 1 0 rfl
          (by decide) (by decide)
        simpa using hstep
      have s2 : JobStepClean 50 (⟨1, 1, 0, .processing 2⟩ : JobState) ⟨1, 1, 0, .completed⟩ :=
        JobStepClean.completeJob _ 2 rfl (by decide)
      exact .head s0 (.head s1 (.head s2 .refl))
    have h := (C1_job_progress_invariant 50 1 ⟨1, 1, 0, .completed⟩).2 (by decide) hchain rfl
    simpa using h

/-- C2: for every batch number ≥ 1 and batch size, the batch processor
retains exactly the 1-indexed data rows in the inclusive range
`[start, end]`, `start = (batchNumber-1)*batchSize + 1`,
`end = start + batchSize - 1`; in particular, with batch size 50 over 100
data rows, batch 1 retains rows 1–50 and batch 2 retains rows 51–100. -/
theorem C2_batch_row_selection (bn bs row total : Nat) (hbn : 1 ≤ bn) :
    (row ∈ batchRows bn bs total ↔
        startRowOf bn bs ≤ row ∧ row ≤ endRowOf bn bs ∧ 1 ≤ row ∧ row ≤ total) ∧
    startRowOf bn bs = (bn - 1) * bs + 1 ∧
    endRowOf bn bs = startRowOf bn bs + bs - 1 ∧
    batchRows 1 50 100 = List.range' 1 50 ∧
    batchRows 2 50 100 = List.range' 51 50 := by
  refine ⟨mem_batchRows bn bs row total, rfl, rfl, by decide, by decide⟩

/-- C2 witness: row 51 is retained by batch 2 at batch size 50. -/
theorem C2_witness : 51 ∈ batchRows 2 50 100 :=
  (C2_batch_row_selection 2 50 51 100 (by decide)).1.mpr (by decide)

/-- C3: for every requested cap `n` and every reachable executor state (any
interleaving of submissions, dispatches and completions), `activeWorkers` is
never negative and never exceeds the effective cap `max(1, min(n, 10))`,
which itself always lies within 1–10. -/
theorem C3_concurrency_cap (n : Int) (ts : List WorkerTask) (s : PoolState)
    (h : Relation.ReflTransGen (PoolStep (clampMaxWorkers n)) (poolStart ts) s) :
    (0 ≤ s.activeWorkers ∧ s.activeWorkers ≤ clampMaxWorkers n) ∧
      1 ≤ clampMaxWorkers n ∧ clampMaxWorkers n ≤ 10 := by
  have hcl := clampMaxWorkers_bounds n
  have hinv : PoolInv (clampMaxWorkers n) s :=
    poolInv_reach h (poolInv_start _ (by omega) ts)
  obtain ⟨h1, h2, h3⟩ := hinv
  refine ⟨⟨?_, ?_⟩, hcl⟩ <;> rw [h1] <;> [positivity; exact h2]

/-- C3 witness: instantiated at requested cap 99 and the initial state. -/
theorem C3_witness :
    ((0 : Int) ≤ (poolStart []).activeWorkers ∧
      (poolStart []).activeWorkers ≤ clampMaxWorkers 99) ∧
    1 ≤ clampMaxWorkers 99 ∧ clampMaxWorkers 99 ≤ 10 :=
  C3_concurrency_cap 99 [] (poolStart []) Relation.ReflTransGen.refl

/-- C4: fault isolation of the executor.  A task settles with exactly its own
handler outcome (`finish` records the task unchanged, so a throwing handler
rejects only that task's future), and a failing task releases its slot and
re-triggers dispatch exactly like a succeeding one.  Consequently, from a
burst of submissions, any reachable state in which no internal step remains
(no dispatch possible, nothing in flight) has an empty queue and every
submitted task — including those queued behind a failing one — settled:
`done` is a permutation of all submissions. -/
theorem C4_fault_isolation (n : Int) (ts : List WorkerTask) (s : PoolState)
    (h : Relation.ReflTransGen (PoolStep (clampMaxWorkers n)) (poolStart ts) s)
    (hstuck : ¬ poolCanStep (clampMaxWorkers n) s) :
    s.queue = [] ∧ s.running = [] ∧ s.done.Perm s.submitted := by
  have hcl := clampMaxWorkers_bounds n
  have hinv : PoolInv (clampMaxWorkers n) s :=
    poolInv_reach h (poolInv_start _ (by omega) ts)
  obtain ⟨h1, h2, h3⟩ := hinv
  unfold poolCanStep at hstuck
  push_neg at hstuck
  obtain ⟨hqd, hrun⟩ := hstuck
  have hrunnil : s.running = [] := by simpa using hrun
  have hact0 : s.activeWorkers = 0 := by rw [h1, hrunnil]; rfl
  have hqnil : s.queue = [] := hqd (by omega)
  refine ⟨hqnil, hrunnil, ?_⟩
  rw [hqnil, hrunnil] at h3
  simpa using h3

/-- C4 witness: cap 1, three tasks of which the second one's handler throws;
the executor drains all three (the failing task settles rejected, the others
fulfil) and reaches quiescence with every future settled. -/
theorem C4_witness :
    ([] : List WorkerTask) = [] ∧ ([] : List WorkerTask) = [] ∧
      ([⟨1, true⟩, ⟨2, false⟩, ⟨3, true⟩] : List WorkerTask).Perm
        [⟨1, true⟩, ⟨2, false⟩, ⟨3, true⟩] := by
  have hchain : Relation.ReflTransGen (PoolStep (clampMaxWorkers 1))
      (poolStart [⟨1, true⟩, ⟨2, false⟩, ⟨3, true⟩])
      ⟨[], [], 0, [⟨1, true⟩, ⟨2, false⟩, ⟨3, true⟩], [⟨1, true⟩, ⟨2, false⟩, ⟨3, true⟩]⟩ := by
    have s0 : PoolStep (clampMaxWorkers 1) (poolStart [⟨1, true⟩, ⟨2, false⟩, ⟨3, true⟩])
        ⟨[⟨2, false⟩, ⟨3, true⟩], [⟨1, true⟩], 1, [], [⟨1, true⟩, ⟨2, false⟩, ⟨3, true⟩]⟩ := by
      have hstep := @PoolStep.dispatch (clampMaxWorkers 1)
        (poolStart [⟨1, true⟩, ⟨2, false⟩, ⟨3, true⟩]) ⟨1, true⟩ [⟨2, false⟩, ⟨3, true⟩]
        (by decide) rfl
      simpa using hstep
    have s1 : PoolStep (clampMaxWorkers 1)
        (⟨[⟨2, false⟩, ⟨3, true⟩], [⟨1, true⟩], 1, [], [⟨1, true⟩, ⟨2, false⟩, ⟨3, true⟩]⟩ : PoolState)
        ⟨[⟨2, false⟩, ⟨3, true⟩], [], 0, [⟨1, true⟩], [⟨1, true⟩, ⟨2, false⟩, ⟨3, true⟩]⟩ := by
      have hstep := @PoolStep.finish (clampMaxWorkers 1)
        ⟨[⟨2, false⟩, ⟨3, true⟩], [⟨1, true⟩], 1, [], [⟨1, true⟩, ⟨2, false⟩, ⟨3, true⟩]⟩
        ⟨1, true⟩ [] [] rfl
      simpa using hstep
    have s2 : PoolStep (clampMaxWorkers 1)
        (⟨[⟨2, false⟩, ⟨3, true⟩], [], 0, [⟨1, true⟩], [⟨1, true⟩, ⟨2, false⟩, ⟨3, true⟩]⟩ : PoolState)
        ⟨[⟨3, true⟩], [⟨2, false⟩], 1, [⟨1, true⟩], [⟨1, true⟩, ⟨2, false⟩, ⟨3, true⟩]⟩ := by
      have hstep := @PoolStep.dispatch (clampMaxWorkers 1)
        ⟨[⟨2, false⟩, ⟨3, true⟩], [], 0, [⟨1, true⟩], [⟨1, true⟩, ⟨2, false⟩, ⟨3, true⟩]⟩
        ⟨2, false⟩ [⟨3, true⟩] (by decide) rfl
      simpa using hstep
    have s3 : PoolStep (clampMaxWorkers 1)
        (⟨[⟨3, true⟩], [⟨2, false⟩], 1, [⟨1, true⟩], [⟨1, true⟩, ⟨2, false⟩, ⟨3, true⟩]⟩ : PoolState)
        ⟨[⟨3, true⟩], [], 0, [⟨1, true⟩, ⟨2, false⟩], [⟨1, true⟩, ⟨2, false⟩, ⟨3, true⟩]⟩ := by
      have hstep := @PoolStep.finish (clampMaxWorkers 1)
        ⟨[⟨3, true⟩], [⟨2, false⟩], 1, [⟨1, true⟩], [⟨1, true⟩, ⟨2, false⟩, ⟨3, true⟩]⟩
        ⟨2, false⟩ [] [] rfl
      simpa using hstep
    have s4 : PoolStep (clampMaxWorkers 1)
        (⟨[⟨3, true⟩], [], 0, [⟨1, true⟩, ⟨2, false⟩], [⟨1, true⟩, ⟨2, false⟩, ⟨3, true⟩]⟩ : PoolState)
        ⟨[], [⟨3, true⟩], 1, [⟨1, true⟩, ⟨2, false⟩], [⟨1, true⟩, ⟨2, false⟩, ⟨3, true⟩]⟩ := by
      have hstep := @PoolStep.dispatch (clampMaxWorkers 1)
        ⟨[⟨3, true⟩], [], 0, [⟨1, true⟩, ⟨2, false⟩], [⟨1, true⟩, ⟨2, false⟩, ⟨3, true⟩]⟩
        ⟨3, true⟩ [] (by decide) rfl
      simpa using hstep
    have s5 : PoolStep (clampMaxWorkers 1)
        (⟨[], [⟨3, true⟩], 1, [⟨1, true⟩, ⟨2, false⟩], [⟨1, true⟩, ⟨2, false⟩, ⟨3, true⟩]⟩ : PoolState)
        ⟨[], [], 0, [⟨1, true⟩, ⟨2, false⟩, ⟨3, true⟩], [⟨1, true⟩, ⟨2, false⟩, ⟨3, true⟩]⟩ := by
      have hstep := @PoolStep.finish (clampMaxWorkers 1)
        ⟨[], [⟨3, true⟩], 1, [⟨1, true⟩, ⟨2, false⟩], [⟨1, true⟩, ⟨2, false⟩, ⟨3, true⟩]⟩
        ⟨3, true⟩ [] [] rfl
      simpa using hstep
    exact .head s0 (.head s1 (.head s2 (.head s3 (.head s4 (.head s5 .refl)))))
  exact C4_fault_isolation 1 [⟨1, true⟩, ⟨2, false⟩, ⟨3, true⟩] _ hchain (by decide)

/-- C5 (amended): for every buffer passing the size, extension,
binary-content, delimiter and two-line checks: if the normalized headers
include `email, firstname, lastname, phoneno` the file validates and the
person variant is active; if they include `coursename, studentname` the file
validates (with the assignment variant active when the person variant is not
fully present — the fixed precedence order); and if additionally the parsed
header list is non-empty but no variant's required set is fully included,
validation fails with exactly the message naming the missing headers per
variant.  (The non-empty-header proviso is the amendment: see the
counterexample.) -/
theorem C5_header_variants (buf name : String)
    (h1 : ¬ buf.length < 10) (h2 : ¬ buf.length > 52428800)
    (h3 : hasCsvExtension name = true) (h4 : contentSampleOk buf = true)
    (h5 : sampleHasComma buf = true) (h6 : ¬ (csvLines buf).length < 2) :
    (hasVariant REQUIRED_CSV_HEADERS_VARIANT_1 (normalizedCsvHeaders buf) = true →
        (validateCsvFile buf name).isValid = true ∧
        activeRequiredHeaders (normalizedCsvHeaders buf) = REQUIRED_CSV_HEADERS_VARIANT_1) ∧
    (hasVariant REQUIRED_CSV_HEADERS_VARIANT_2 (normalizedCsvHeaders buf) = true →
        (validateCsvFile buf name).isValid = true ∧
        (hasVariant REQUIRED_CSV_HEADERS_VARIANT_1 (normalizedCsvHeaders buf) = false →
          activeRequiredHeaders (normalizedCsvHeaders buf) = REQUIRED_CSV_HEADERS_VARIANT_2)) ∧
    (csvHeaderFields buf ≠ [] →
     hasVariant REQUIRED_CSV_HEADERS_VARIANT_1 (normalizedCsvHeaders buf) = false →
     hasVariant REQUIRED_CSV_HEADERS_VARIANT_2 (normalizedCsvHeaders buf) = false →
     hasVariant REQUIRED_CSV_HEADERS_VARIANT_3 (normalizedCsvHeaders buf) = false →
        (validateCsvFile buf name).isValid = false ∧
        (validateCsvFile buf name).error = some (missingHeadersError
          (missingHeaders REQUIRED_CSV_HEADERS_VARIANT_1 (normalizedCsvHeaders buf))
          (missingHeaders REQUIRED_CSV_HEADERS_VARIANT_2 (normalizedCsvHeaders buf))
          (missingHeaders REQUIRED_CSV_HEADERS_VARIANT_3 (normalizedCsvHeaders buf)))) := by
  refine ⟨?_, ?_, ?_⟩
  · intro hv
    have hne : (csvHeaderFields buf).length ≠ 0 := by
      intro h0
      rw [normalizedCsvHeaders, List.length_eq_zero] at *
      rw [h0] at hv
      simp [hasVariant, REQUIRED_CSV_HEADERS_VARIANT_1] at hv
    constructor
    · rw [validateCsvFile]
      rw [if_neg h1, if_neg h2, if_neg (by simp [h3]), if_neg (by simp [h4]),
          if_neg (by simp [h5]), if_neg h6, if_neg hne]
      simp only [hv]
      simp
    · rw [activeRequiredHeaders, if_pos hv]
  · intro hv
    have hne : (csvHeaderFields buf).length ≠ 0 := by
      intro h0
      rw [normalizedCsvHeaders, List.length_eq_zero] at *
      rw [h0] at hv
      simp [hasVariant, REQUIRED_CSV_HEADERS_VARIANT_2] at hv
    constructor
    · rw [validateCsvFile]
      rw [if_neg h1, if_neg h2, if_neg (by simp [h3]), if_neg (by simp [h4]),
          if_neg (by simp [h5]), if_neg h6, if_neg hne]
      simp only [hv]
      simp
    · intro hv1
      rw [activeRequiredHeaders, if_neg (by simp [hv1]), if_pos hv]
  · intro hne0 hv1 hv2 hv3
    have hne : (csvHeaderFields buf).length ≠ 0 := by
      simpa [List.length_eq_zero] using hne0
    rw [validateCsvFile]
    rw [if_neg h1, if_neg h2, if_neg (by simp [h3]), if_neg (by simp [h4]),
        if_neg (by simp [h5]), if_neg h6, if_neg hne]
    simp only [hv1, hv2, hv3]
    simp

/-- C5 counterexample: the buffer `",,,,,,,,,,\nx,y"` (ten commas, then one
data row) passes the size, extension, binary-content, delimiter and two-line
checks and satisfies no variant's required-header set, yet validation fails
with the distinct message `"CSV file has no headers"` — not a message naming
the missing headers per variant — because every header field of the first
line is empty and the quote-aware splitter drops empty fields. -/
theorem C5_counterexample :
    ¬ (",,,,,,,,,,\nx,y").length < 10 ∧
    ¬ (",,,,,,,,,,\nx,y").length > 52428800 ∧
    hasCsvExtension "a.csv" = true ∧
    contentSampleOk ",,,,,,,,,,\nx,y" = true ∧
    sampleHasComma ",,,,,,,,,,\nx,y" = true ∧
    ¬ (csvLines ",,,,,,,,,,\nx,y").length < 2 ∧
    hasVariant REQUIRED_CSV_HEADERS_VARIANT_1 (normalizedCsvHeaders ",,,,,,,,,,\nx,y") = false ∧
    hasVariant REQUIRED_CSV_HEADERS_VARIANT_2 (normalizedCsvHeaders ",,,,,,,,,,\nx,y") = false ∧
    hasVariant REQUIRED_CSV_HEADERS_VARIANT_3 (normalizedCsvHeaders ",,,,,,,,,,\nx,y") = false ∧
    validateCsvFile ",,,,,,,,,,\nx,y" "a.csv" =
      ⟨false, some "CSV file has no headers", none, none⟩ ∧
    (validateCsvFile ",,,,,,,,,,\nx,y" "a.csv").error ≠ some (missingHeadersError
      (missingHeaders REQUIRED_CSV_HEADERS_VARIANT_1 (normalizedCsvHeaders ",,,,,,,,,,\nx,y"))
      (missingHeaders REQUIRED_CSV_HEADERS_VARIANT_2 (normalizedCsvHeaders ",,,,,,,,,,\nx,y"))
      (missingHeaders REQUIRED_CSV_HEADERS_VARIANT_3 (normalizedCsvHeaders ",,,,,,,,,,\nx,y"))) := by
  decide

/-- C5 witness: a person-variant file validates. -/
theorem C5_witness :
    (validateCsvFile "email,firstname,lastname,phoneno\na@b.c,J,D,1" "s.csv").isValid = true ∧
    activeRequiredHeaders (normalizedCsvHeaders "email,firstname,lastname,phoneno\na@b.c,J,D,1")
      = REQUIRED_CSV_HEADERS_VARIANT_1 :=
  (C5_header_variants "email,firstname,lastname,phoneno\na@b.c,J,D,1" "s.csv"
    (by decide) (by decide) (by decide) (by decide) (by decide) (by decide)).1 (by decide)

/-- C6: the scheduler computes `totalBatches = ceil(totalRecords/batchSize)`
(the integer computation agrees with the rational ceiling for positive batch
size) and submits exactly the batch numbers 1 through `totalBatches`;
for totalRecords = 120 and batchSize = 50 this yields the three batches
1, 2, 3, the last retaining only rows 101–120. -/
theorem C6_total_batches (t bs b : Nat) (hbs : 1 ≤ bs) :
    totalBatches t bs = specCeilBatches t bs ∧
    (b ∈ schedulerBatchNumbers t bs ↔ 1 ≤ b ∧ b ≤ totalBatches t bs) ∧
    totalBatches 120 50 = 3 ∧
    schedulerBatchNumbers 120 50 = [1, 2, 3] ∧
    batchRows 3 50 120 = List.range' 101 20 := by
  refine ⟨totalBatches_eq_specCeil t bs hbs, ?_, by decide, by decide, by decide⟩
  simp only [schedulerBatchNumbers, List.mem_range'_1]
  omega

/-- C6 witness: instantiated at totalRecords 120, batchSize 50, batch 2. -/
theorem C6_witness : totalBatches 120 50 = 3 ∧ schedulerBatchNumbers 120 50 = [1, 2, 3] := by
  have h := C6_total_batches 120 50 2 (by decide)
  exact ⟨h.2.2.1, h.2.2.2.1⟩

/-- C7: the quote-aware splitter applied to
`"me@ex.com","John ""The Man""","Doe","123"` returns exactly four fields, the
second being `John "The Man"`: the internal doubled quote becomes one literal
quote and the quoted commas are not field boundaries. -/
theorem C7_quote_aware_parsing :
    parseCSVLine "\"me@ex.com\",\"John \"\"The Man\"\"\",\"Doe\",\"123\"" =
      ["me@ex.com", "John \"The Man\"", "Doe", "123"] ∧
    (parseCSVLine "\"me@ex.com\",\"John \"\"The Man\"\"\",\"Doe\",\"123\"").length = 4 := by
  constructor
  · decide
  · decide

/-- C8: whenever `downloadAndParseCsv` throws (storage fetch or stream parse
failure), `processBatch` returns
`{success: false, processedCount: 0, failedCount: 0, errorMessage}` and the
job row is returned exactly as it was — no counter, error or timestamp
write. -/
theorem C8_unrecoverable_exception (msg : String) (send : StudentRecord → SendOutcome)
    (persistFails : Bool) (now : Nat) (db : JobRow) :
    processBatch (.error msg) send persistFails now db = (⟨false, 0, 0, some msg, none⟩, db) :=
  rfl

/-- C9: the splitter only ever returns fields that are non-empty (every field
is pushed trimmed and empty fields are filtered out), so consecutive
delimiters, whitespace-only fields, empty quoted fields and leading/trailing
delimiters are silently dropped: `a,,b` yields the two fields `a` and `b`,
not three. -/
theorem C9_blank_fields_dropped :
    (∀ (line : String) (field : String), field ∈ parseCSVLine line → 0 < field.length) ∧
    parseCSVLine "a,,b" = ["a", "b"] ∧
    parseCSVLine "a, ,b" = ["a", "b"] ∧
    parseCSVLine "a,\"\",b" = ["a", "b"] ∧
    parseCSVLine ",a,b," = ["a", "b"] := by
  refine ⟨?_, by decide, by decide, by decide, by decide⟩
  intro line field hmem
  have h := List.of_mem_filter hmem
  exact of_decide_eq_true h

/-- C9 witness: the field `a` returned for the line `a,,b` is non-empty. -/
theorem C9_witness : 0 < String.length "a" :=
  C9_blank_fields_dropped.1 "a,,b" "a" (by decide)

/-- C10: the status endpoint guards the progress division with a
`total_records > 0` check, so a job row with `total_records = 0` reports
`progressPercentage = 0` for any counter values (and a 1-of-2 job reports
50). -/
theorem C10_zero_total_records (sc fc : Nat) :
    progressPercentage sc fc 0 = 0 ∧ progressPercentage 1 0 2 = 50 := by
  constructor
  · simp [progressPercentage]
  · rw [progressPercentage]
    norm_num
